import Mathlib

/-!
# events-example: HTTP controller, service and provider

A shallow embedding of the Go sources

* `controller/events.go` (`RegisterRoutes`, `handleCreateEvent`,
  `handleListEvents`, `handleGetEventByID`, `writeJSON`),
* `services/event.go` (`eventService`),
* `providers/event.go` (`pgEventStore`),
* the test double `mockEventService` of `controller/events_test.go`.

Stateful collaborators (the service behind the controller, the database
behind the provider) are state-passing functions over an arbitrary state type;
the `events` table with its two queries is one such database.
Go strings are Lean strings; Go's `len(s)` is `String.utf8ByteSize`.
-/

namespace Events

/-! ## Library values used by the code -/

/-- Go `time.Time`, reduced to the instant it denotes: seconds since
January 1, year 1 00:00:00 UTC and nanoseconds within the second. -/
structure Time where
  sec : Int
  nsec : Nat
deriving DecidableEq, Repr

/-- Method `Time.IsZero`: `t.sec() == 0 && t.nsec() == 0`. -/
def Time.IsZero (t : Time) : Bool :=
  t.sec == 0 && t.nsec == 0

/-- Method `Time.Before` for times without a monotonic reading:
`ts < us || ts == us && t.nsec() < u.nsec()`. -/
def Time.Before (t u : Time) : Bool :=
  decide (t.sec < u.sec) || (t.sec == u.sec && decide (t.nsec < u.nsec))

/-- Method `Time.Add` for a non-negative duration given in nanoseconds. -/
def Time.Add (t : Time) (d : Nat) : Time :=
  let dsec : Int := (d / 1000000000 : Nat)
  let nsec := t.nsec + d % 1000000000
  if 1000000000 ≤ nsec then ⟨t.sec + dsec + 1, nsec - 1000000000⟩
  else ⟨t.sec + dsec, nsec⟩

/-- Go `time.Second`, in nanoseconds. -/
def Second : Nat := 1000000000

/-- Type `uuid.UUID`, a `[16]byte` array, as the list of its bytes. -/
structure UUID where
  bytes : List Nat
deriving DecidableEq, Repr

/-- Go `error` values that occur here: the sentinel `sql.ErrNoRows`, an
error with a message, and an error wrapping another one (`%w`). -/
inductive GoError where
  | ErrNoRows
  | msg (text : String)
  | wrap (text : String) (inner : GoError)
deriving DecidableEq, Repr

/-- The `Error()` method. -/
def GoError.Error : GoError → String
  | .ErrNoRows => "sql: no rows in result set"
  | .msg t => t
  | .wrap t _ => t

/-- Test `errors.Is(err, sql.ErrNoRows)`: walks the `Unwrap` chain. -/
def GoError.IsErrNoRows : GoError → Bool
  | .ErrNoRows => true
  | .msg _ => false
  | .wrap _ inner => inner.IsErrNoRows

/-- Type `context.Context`, reduced to its deadline. -/
structure Context where
  deadline : Option Time
deriving DecidableEq, Repr

/-- Call `context.WithTimeout(parent, d)`, with `now` the clock reading taken by
the call: the deadline is `now.Add(d)` unless the parent's one is earlier. -/
def WithTimeout (parent : Context) (now : Time) (d : Nat) : Context :=
  match parent.deadline with
  | some cur => if cur.Before (now.Add d) then parent else ⟨some (now.Add d)⟩
  | none => ⟨some (now.Add d)⟩

/-! ## Entity model (`structures`) -/

/-- Modelled from the spec: the `structures.Event` record, whose declaration
is not among the sources: id, title, description, start and end time,
creation time. -/
structure Event where
  ID : UUID
  Title : String
  Description : String
  StartTime : Time
  EndTime : Time
  CreatedAt : Time
deriving DecidableEq, Repr

/-- Modelled from the spec: the `structures.CreateEventRequest` shape, whose
declaration is not among the sources: title, description, start and end time,
without id or creation time. -/
structure CreateEventRequest where
  Title : String
  Description : String
  StartTime : Time
  EndTime : Time
deriving DecidableEq, Repr

/-! ## HTTP values -/

/-- Go view of a string as its UTF-8 byte sequence (indexing and slicing of a
Go string work on these bytes). -/
def goBytes (s : String) : List Nat :=
  (s.data.flatMap String.utf8EncodeChar).map UInt8.toNat

/-- Go `len(s)` of a string: its number of bytes. -/
def len (s : String) : Nat := s.utf8ByteSize

/-- What a handler wrote to the `http.ResponseWriter`. -/
structure Response where
  status : Nat
  contentType : String
  body : String
deriving DecidableEq, Repr

/-- Status codes of `net/http` that the handlers use. -/
def StatusOK : Nat := 200

def StatusCreated : Nat := 201

def StatusBadRequest : Nat := 400

def StatusNotFound : Nat := 404

def StatusMethodNotAllowed : Nat := 405

def StatusInternalServerError : Nat := 500

/-- Call `http.Error(w, msg, code)`: plain text, the message followed by a newline. -/
def httpError (msg : String) (code : Nat) : Response :=
  { status := code, contentType := "text/plain; charset=utf-8", body := msg ++ "\n" }

/-- The request as the handlers read it. `Body` is the outcome of
`json.NewDecoder(r.Body).Decode(&req)`: `none` when decoding fails. -/
structure Request where
  Method : String
  Path : String
  Context : Context
  Body : Option CreateEventRequest
deriving Repr

/-- Values the handlers take from their surroundings: the id drawn by
`uuid.New()`, the clock read by `context.WithTimeout` and by `time.Now()`,
`uuid.Parse` on the bytes of a string (`none` for a non-nil error, which the
caller never inspects), and the JSON rendering of one event by
`encoding/json`. -/
structure Env where
  newID : UUID
  ctxNow : Time
  now : Time
  uuidParse : List Nat → Option UUID
  encEvent : Event → String

/-- Output of `json.Encoder.Encode` for a `*structures.Event`: `null` for a nil pointer;
the encoder ends its output with a newline. -/
def encodeEventPtr (env : Env) : Option Event → String
  | none => "null\n"
  | some e => env.encEvent e ++ "\n"

/-- Output of `json.Encoder.Encode` for a `[]structures.Event`: `null` for a nil slice,
otherwise the bracketed, comma-separated elements in order. -/
def encodeEventSlice (env : Env) : Option (List Event) → String
  | none => "null\n"
  | some es => "[" ++ ",".intercalate (es.map env.encEvent) ++ "]\n"

/-- Function `writeJSON(w, status, v)` with `v` already encoded. -/
def writeJSON (status : Nat) (encoded : String) : Response :=
  { status := status, contentType := "application/json", body := encoded }

/-! ## Service interface (`services/event.go`) -/

/-- The interface `services.EventService` over a collaborator with state `σ`.
A Go result `(*Event, error)` is a pair of options (nil is `none`); a slice
result is `none` for the nil slice and `some l` otherwise. -/
structure EventService (σ : Type) where
  CreateEvent : Context → Event → σ → (Option Event × Option GoError) × σ
  ListEvents : Context → σ → (Option (List Event) × Option GoError) × σ
  GetEvent : Context → UUID → σ → (Option Event × Option GoError) × σ

/-- Type `eventService`: the wrapper of `NewEventService(store)`. -/
def eventService {σ : Type} (store : EventService σ) : EventService σ where
  CreateEvent := fun ctx e s => store.CreateEvent ctx e s
  ListEvents := fun ctx s => store.ListEvents ctx s
  GetEvent := fun ctx id s => store.GetEvent ctx id s

/-- One invocation of a service operation, with its arguments. -/
inductive Call where
  | create (ctx : Context) (e : Event)
  | list (ctx : Context)
  | get (ctx : Context) (id : UUID)
deriving DecidableEq, Repr

/-- A service that behaves as `svc` and appends every invocation to a log. -/
def traced {σ : Type} (svc : EventService σ) : EventService (σ × List Call) where
  CreateEvent := fun ctx e s =>
    ((svc.CreateEvent ctx e s.1).1, ((svc.CreateEvent ctx e s.1).2, s.2 ++ [Call.create ctx e]))
  ListEvents := fun ctx s =>
    ((svc.ListEvents ctx s.1).1, ((svc.ListEvents ctx s.1).2, s.2 ++ [Call.list ctx]))
  GetEvent := fun ctx id s =>
    ((svc.GetEvent ctx id s.1).1, ((svc.GetEvent ctx id s.1).2, s.2 ++ [Call.get ctx id]))

/-- The test double `mockEventService` of `controller/events_test.go`. -/
structure mockEventService where
  createCalled : Bool := false
  createReq : Option Event := none
  createResp : Option Event := none
  createErr : Option GoError := none
  listCalled : Bool := false
  listResp : Option (List Event) := none
  listErr : Option GoError := none
  getCalled : Bool := false
  getID : UUID := ⟨List.replicate 16 0⟩
  getResp : Option Event := none
  getErr : Option GoError := none
deriving DecidableEq, Repr

/-- The methods of `mockEventService`. -/
def mockService : EventService mockEventService where
  CreateEvent := fun _ e m =>
    ((m.createResp, m.createErr), { m with createCalled := true, createReq := some e })
  ListEvents := fun _ m =>
    ((m.listResp, m.listErr), { m with listCalled := true })
  GetEvent := fun _ id m =>
    ((m.getResp, m.getErr), { m with getCalled := true, getID := id })

/-! ## Controller (`controller/events.go`) -/

/-- What a handler did: the response it wrote, the lines it logged, and the
state in which it left the service. -/
structure Handled (σ : Type) where
  resp : Response
  logs : List String
  state : σ
deriving DecidableEq

/-- Handler `handleCreateEvent` of `POST /events`. -/
def handleCreateEvent {σ : Type} (env : Env) (svc : EventService σ) (r : Request) (s : σ) :
    Handled σ :=
  if r.Method ≠ "POST" then
    ⟨httpError "method not allowed" StatusMethodNotAllowed, [], s⟩
  else
    let ctx := WithTimeout r.Context env.ctxNow (5 * Second)
    match r.Body with
    | none => ⟨httpError "invalid JSON body" StatusBadRequest, [], s⟩
    | some req =>
      if req.Title = "" then
        ⟨httpError "title is required" StatusBadRequest, [], s⟩
      else if len req.Title > 100 then
        ⟨httpError "title must be at most 100 characters" StatusBadRequest, [], s⟩
      else if req.StartTime.IsZero || req.EndTime.IsZero then
        ⟨httpError "start_time and end_time are required" StatusBadRequest, [], s⟩
      else if !req.StartTime.Before req.EndTime then
        ⟨httpError "start_time must be before end_time" StatusBadRequest, [], s⟩
      else
        match svc.CreateEvent ctx
            { ID := env.newID
              Title := req.Title
              Description := req.Description
              StartTime := req.StartTime
              EndTime := req.EndTime
              CreatedAt := env.now } s with
        | ((_, some err), s1) =>
          ⟨httpError err.Error StatusBadRequest, ["Create error: " ++ err.Error], s1⟩
        | ((e, none), s1) =>
          ⟨writeJSON StatusCreated (encodeEventPtr env e), [], s1⟩

/-- Handler `handleListEvents` of `GET /events`. -/
def handleListEvents {σ : Type} (env : Env) (svc : EventService σ) (r : Request) (s : σ) :
    Handled σ :=
  if r.Method ≠ "GET" then
    ⟨httpError "method not allowed" StatusMethodNotAllowed, [], s⟩
  else
    let ctx := WithTimeout r.Context env.ctxNow (5 * Second)
    match svc.ListEvents ctx s with
    | ((_, some err), s1) =>
      ⟨httpError "failed to list events" StatusInternalServerError,
        ["List error: " ++ err.Error], s1⟩
    | ((events, none), s1) =>
      ⟨writeJSON StatusOK (encodeEventSlice env events), [], s1⟩

/-- Handler `handleGetEventByID` of `GET /events/`. The result is `none` when the slice expression
`r.URL.Path[len("/events/"):]` is out of range (a run-time panic). -/
def handleGetEventByID {σ : Type} (env : Env) (svc : EventService σ) (r : Request) (s : σ) :
    Option (Handled σ) :=
  if r.Method ≠ "GET" then
    some ⟨httpError "method not allowed" StatusMethodNotAllowed, [], s⟩
  else if len r.Path < len "/events/" then
    none
  else
    let idStr := (goBytes r.Path).drop (len "/events/")
    if idStr = [] then
      some ⟨httpError "missing event id" StatusBadRequest, [], s⟩
    else
      match env.uuidParse idStr with
      | none => some ⟨httpError "invalid UUID" StatusNotFound, [], s⟩
      | some id =>
        let ctx := WithTimeout r.Context env.ctxNow (5 * Second)
        match svc.GetEvent ctx id s with
        | ((_, some err), s1) =>
          some ⟨httpError "failed to get event" StatusInternalServerError,
            ["Get error: " ++ err.Error], s1⟩
        | ((none, none), s1) =>
          some ⟨httpError "event not found" StatusNotFound, [], s1⟩
        | ((some e, none), s1) =>
          some ⟨writeJSON StatusOK (encodeEventPtr env (some e)), [], s1⟩

/-! ## Provider (`providers/event.go`) -/

/-- Result set of the ordered `SELECT`: for every row that `rows.Next()`
delivers, the outcome of `rows.Scan` into an event, and the value of
`rows.Err()` once `Next` has returned false. -/
structure Rows where
  scans : List (Except GoError Event)
  err : Option GoError

/-- The three statements the provider sends through `*sql.DB`, over a database
with state `δ`: the `INSERT` (`ExecContext`, only its error is used), the
ordered `SELECT` of all rows (`QueryContext`), and the `SELECT` by id followed
by `Scan` (`QueryRowContext(...).Scan`). -/
structure SQLDB (δ : Type) where
  ExecContext : Context → Event → δ → Option GoError × δ
  QueryContext : Context → δ → Except GoError Rows × δ
  QueryRowContext : Context → UUID → δ → Except GoError Event × δ

/-- The loop `for rows.Next() { ... Scan ...; events = append(events, e) }` of
`ListEvents`, started with the events gathered so far: the first failing scan
ends it with that error. -/
def scanRows : List (Except GoError Event) → List Event → Except GoError (List Event)
  | [], events => .ok events
  | .error err :: _, _ => .error err
  | .ok e :: rest, events => scanRows rest (events ++ [e])

/-- Type `pgEventStore`: the three methods over a database handle. -/
def pgEventStore {δ : Type} (db : SQLDB δ) : EventService δ where
  CreateEvent := fun ctx e d =>
    ((some e, (db.ExecContext ctx e d).1), (db.ExecContext ctx e d).2)
  ListEvents := fun ctx d =>
    match db.QueryContext ctx d with
    | (.error err, d1) => ((none, some err), d1)
    | (.ok rows, d1) =>
      match scanRows rows.scans [] with
      | .error err => ((none, some err), d1)
      | .ok events =>
        match rows.err with
        | some err => ((none, some err), d1)
        | none => ((some events, none), d1)
  GetEvent := fun ctx id d =>
    match db.QueryRowContext ctx id d with
    | (.error err, d1) =>
      if err.IsErrNoRows then ((none, none), d1)
      else ((none, some err), d1)
    | (.ok e, d1) => ((some e, none), d1)

/-! ## `uuid.Parse` (github.com/google/uuid) and sample values -/

/-- The table `xvalues`: the value of a hexadecimal digit, 255 for any other
byte. -/
def xvalue (b : Nat) : Nat :=
  if 48 ≤ b ∧ b ≤ 57 then b - 48
  else if 65 ≤ b ∧ b ≤ 70 then b - 55
  else if 97 ≤ b ∧ b ≤ 102 then b - 87
  else 255

/-- Function `xtob`: two hexadecimal digits to a byte, `none` when the flag is false. -/
def xtob (x1 x2 : Nat) : Option Nat :=
  if xvalue x1 ≠ 255 ∧ xvalue x2 ≠ 255 then some ((xvalue x1 * 16) % 256 ||| xvalue x2)
  else none

/-- Decoding of the digit pairs of `s` that start at the given offsets. -/
def hexPairs (s : List Nat) : List Nat → Option (List Nat)
  | [] => some []
  | x :: xs =>
    match xtob (s.getD x 0) (s.getD (x + 1) 0), hexPairs s xs with
    | some v, some vs => some (v :: vs)
    | _, _ => none

/-- ASCII lower case of a byte. -/
def lowerByte (b : Nat) : Nat := if 65 ≤ b ∧ b ≤ 90 then b + 32 else b

/-- The tail of `Parse`: the form `xxxxxxxx-xxxx-xxxx-xxxx-xxxxxxxxxxxx` on a
string of at least 36 bytes. -/
def parseDashed (s : List Nat) : Option UUID :=
  if s.getD 8 0 ≠ 45 ∨ s.getD 13 0 ≠ 45 ∨ s.getD 18 0 ≠ 45 ∨ s.getD 23 0 ≠ 45 then none
  else (hexPairs s [0, 2, 4, 6, 9, 11, 14, 16, 19, 21, 24, 26, 28, 30, 32, 34]).map UUID.mk

/-- Function `uuid.Parse` on the bytes of its argument: by length, the plain form (36),
the `urn:uuid:` form (45), the braced form (38) and the undashed form (32);
every other length is an error. -/
def Parse (s : List Nat) : Option UUID :=
  if s.length = 36 then parseDashed s
  else if s.length = 36 + 9 then
    if (s.take 9).map lowerByte ≠ goBytes "urn:uuid:" then none
    else parseDashed (s.drop 9)
  else if s.length = 36 + 2 then parseDashed (s.drop 1)
  else if s.length = 32 then
    (hexPairs s ((List.range 16).map (fun i => i * 2))).map UUID.mk
  else none

/-- An environment for concrete runs: `uuid.Parse` as above and a rendering
of an event by its title alone. -/
def sampleEnv : Env where
  newID := ⟨[18, 52, 86, 120, 154, 188, 77, 239, 128, 1, 2, 3, 4, 5, 6, 7]⟩
  ctxNow := ⟨63839700000, 0⟩
  now := ⟨63839700000, 250⟩
  uuidParse := Parse
  encEvent := fun e => "\x7b\"title\":\"" ++ e.Title ++ "\"\x7d"

/-- The instant 2024-01-01T09:00:00Z. -/
def t0900 : Time := ⟨63839696400, 0⟩

/-- The instant 2024-01-01T09:15:00Z. -/
def t0915 : Time := ⟨63839697300, 0⟩

/-- A database whose statements all succeed and whose table is empty. -/
def emptyDB : SQLDB Unit where
  ExecContext := fun _ _ d => (none, d)
  QueryContext := fun _ d => (.ok ⟨[], none⟩, d)
  QueryRowContext := fun _ _ d => (.error GoError.ErrNoRows, d)

/-! ## Values named in the statements -/

/-- The event that `handleCreateEvent` builds from a request: the fields of
the request with the fresh id and the current time. -/
def eventOf (env : Env) (req : CreateEventRequest) : Event :=
  { ID := env.newID
    Title := req.Title
    Description := req.Description
    StartTime := req.StartTime
    EndTime := req.EndTime
    CreatedAt := env.now }

/-- The context a handler passes downstream: the one of the request with the
five-second timeout. -/
def callCtx (env : Env) (r : Request) : Context :=
  WithTimeout r.Context env.ctxNow (5 * Second)

/-- The four validation rules of `handleCreateEvent`, with the length taken as
the code takes it (`len`, in bytes). -/
def passesValidation (req : CreateEventRequest) : Prop :=
  req.Title ≠ "" ∧ len req.Title ≤ 100 ∧ req.StartTime.IsZero = false ∧
    req.EndTime.IsZero = false ∧ req.StartTime.Before req.EndTime = true

instance (req : CreateEventRequest) : Decidable (passesValidation req) := by
  unfold passesValidation
  infer_instance

/-- A create request with the title "Standup", the zero time as start and
09:15 as end. -/
def zeroStartRequest : Request :=
  ⟨"POST", "/events", ⟨none⟩, some ⟨"Standup", "", ⟨0, 0⟩, t0915⟩⟩

/-- A title of 51 characters, each of two bytes in UTF-8. -/
def accentedTitle : String := String.mk (List.replicate 51 'é')

/-- A test double that has the event "Found" to return, as in
`TestHandleGetEventByID_Success`. -/
def foundMock : mockEventService :=
  { getResp := some ⟨sampleEnv.newID, "Found", "", t0900, t0915, t0900⟩ }

/-- The test double of `TestHandleCreateEvent_ServiceError`. -/
def failingMock : mockEventService :=
  { createErr := some (GoError.msg "validation error") }

/-! ## The `events` table and the statements sent to it -/

/-- Modelled from the spec: a row of the `events` table, which
`migrations/bootstrap.sql` (not among the sources) creates: the columns `id`
(primary key), `title`, `description` (nullable), `start_time`, `end_time`
and `created_at`. -/
structure Row where
  id : UUID
  title : String
  description : Option String
  start_time : Time
  end_time : Time
  created_at : Time
deriving DecidableEq, Repr

/-- The select list `id, title, COALESCE(description, ''), start_time,
end_time, created_at` of both queries, scanned into an event. -/
def Row.toEvent (row : Row) : Event :=
  { ID := row.id
    Title := row.title
    Description := row.description.getD ""
    StartTime := row.start_time
    EndTime := row.end_time
    CreatedAt := row.created_at }

/-- Order of instants: `t` is not after `u`. -/
def Time.le (t u : Time) : Prop := u.Before t = false

instance (t u : Time) : Decidable (Time.le t u) := by
  unfold Time.le
  infer_instance

/-- The comparison of `ORDER BY start_time ASC`. -/
def Row.startLE (a b : Row) : Prop := Time.le a.start_time b.start_time

instance (a b : Row) : Decidable (Row.startLE a b) := by
  unfold Row.startLE
  infer_instance

/-- Rows of the query `SELECT ... FROM events ORDER BY start_time ASC` on a
table given in insertion order, already scanned into events. -/
def selectOrdered (table : List Row) : List Event :=
  (table.insertionSort Row.startLE).map Row.toEvent

/-- Outcome of `QueryRowContext(ctx, q, id).Scan(...)` for the query
`SELECT ... FROM events WHERE id = $1`: `sql.ErrNoRows` when no row has the
id, else the first such row. -/
def selectByID (table : List Row) (id : UUID) : Except GoError Event :=
  match table.find? (fun row => decide (row.id = id)) with
  | none => .error GoError.ErrNoRows
  | some row => .ok row.toEvent

/-- A database that holds the `events` table and answers both queries from
it without failure; the effect of the `INSERT` is left to `insert`. -/
def tableDB (insert : Context → Event → List Row → Option GoError × List Row) :
    SQLDB (List Row) where
  ExecContext := insert
  QueryContext := fun _ table => (.ok ⟨(selectOrdered table).map Except.ok, none⟩, table)
  QueryRowContext := fun _ id table => (selectByID table id, table)

/-- An `INSERT` that stores the event as it is given. -/
def storeRow : Context → Event → List Row → Option GoError × List Row :=
  fun _ e table =>
    (none, table ++ [⟨e.ID, e.Title, some e.Description, e.StartTime, e.EndTime, e.CreatedAt⟩])

/-- A table of three rows, inserted out of order, one without description. -/
def sampleTable : List Row :=
  [ ⟨⟨List.replicate 16 3⟩, "Review", some "weekly", t0915, ⟨63839700000, 0⟩, t0900⟩,
    ⟨⟨List.replicate 16 1⟩, "Standup", none, t0900, t0915, t0900⟩,
    ⟨⟨List.replicate 16 2⟩, "Retro", some "", ⟨63839696400, 500⟩, t0915, t0900⟩ ]

/-! ## Routing (`RegisterRoutes`) and the id segment -/

/-- The three handlers of the controller. -/
inductive Route where
  | create
  | list
  | getByID
deriving DecidableEq, Repr

/-- Match of a request against a pattern of `http.ServeMux` given by its
method and path: the method must be the one of the pattern (`GET` also
matches `HEAD`), and the path must be the one of the pattern, or start with
it when the pattern ends in a slash. The mux moreover redirects paths that
are not clean instead of delivering them, which only removes requests. -/
def patternMatches (patMethod patPath method path : String) : Bool :=
  (method == patMethod || (patMethod == "GET" && method == "HEAD")) &&
    (if patPath.data.getLast? = some '/' then patPath.data.isPrefixOf path.data
     else path == patPath)

/-- The registrations of `RegisterRoutes`, in its order. -/
def RegisterRoutes : List (String × String × Route) :=
  [("POST", "/events", Route.create), ("GET", "/events", Route.list),
    ("GET", "/events/", Route.getByID)]

/-- The handler to which the mux delivers a request: the one whose pattern
matches (no request matches two of the three patterns). -/
def routeOf (method path : String) : Option Route :=
  (RegisterRoutes.find? (fun p => patternMatches p.1 p.2.1 method path)).map (fun p => p.2.2)

/-- The slice expression `r.URL.Path[len("/events/"):]` on its own: `none`
when the offset lies beyond the end of the path (slice bounds out of range),
else the bytes of the path from that offset on. -/
def idSegment (path : String) : Option (List Nat) :=
  if len path < len "/events/" then none
  else some ((goBytes path).drop (len "/events/"))

/-! ## Facts about strings and times -/

theorem length_le_len (s : String) : s.length ≤ len s := by
  obtain ⟨cs⟩ := s
  show cs.length ≤ String.utf8Len cs
  induction cs with
  | nil => simp
  | cons c cs ih =>
    have hc := Char.utf8Size_pos c
    simp only [List.length_cons, String.utf8Len_cons]
    omega

theorem len_append (a b : String) : len (a ++ b) = len a + len b := by
  obtain ⟨as⟩ := a
  obtain ⟨bs⟩ := b
  show String.utf8Len (as ++ bs) = String.utf8Len as + String.utf8Len bs
  simp

theorem goBytes_append (a b : String) : goBytes (a ++ b) = goBytes a ++ goBytes b := by
  simp [goBytes, String.data_append]

theorem goBytes_length (s : String) : (goBytes s).length = len s := by
  obtain ⟨cs⟩ := s
  show ((cs.flatMap String.utf8EncodeChar).map UInt8.toNat).length = String.utf8Len cs
  induction cs with
  | nil => simp
  | cons c cs ih =>
    simp only [List.length_map] at ih
    simp [List.flatMap_cons, ih, Nat.add_comm]

theorem goBytes_eq_nil (s : String) : goBytes s = [] ↔ s = "" := by
  constructor
  · intro h
    have hl : (goBytes s).length = 0 := by simp [h]
    rw [goBytes_length] at hl
    obtain ⟨cs⟩ := s
    have hcs : cs = [] := String.utf8Len_eq_zero.mp hl
    subst hcs
    rfl
  · intro h
    subst h
    rfl

theorem Time.Before_irrefl (t : Time) : t.Before t = false := by
  simp [Time.Before]

/-- Lower bound on the path length that the `GET /events/` route guarantees. -/
theorem len_events_prefix (rest : String) : ¬ len ("/events/" ++ rest) < len "/events/" := by
  rw [len_append]
  omega

theorem drop_events_prefix (rest : String) :
    (goBytes ("/events/" ++ rest)).drop (len "/events/") = goBytes rest := by
  rw [goBytes_append, ← goBytes_length, List.drop_left]

/-! ## The create handler -/

/-- A request that passes validation is answered from the outcome of the one
service call. -/
theorem handleCreateEvent_of_valid {σ : Type} (env : Env) (svc : EventService σ) (r : Request)
    (req : CreateEventRequest) (s : σ) (hm : r.Method = "POST") (hb : r.Body = some req)
    (hv : passesValidation req) :
    handleCreateEvent env svc r s =
      match svc.CreateEvent (callCtx env r) (eventOf env req) s with
      | ((_, some err), s1) =>
        ⟨httpError err.Error StatusBadRequest, ["Create error: " ++ err.Error], s1⟩
      | ((e, none), s1) => ⟨writeJSON StatusCreated (encodeEventPtr env e), [], s1⟩ := by
  obtain ⟨h1, h2, h3, h4, h5⟩ := hv
  have h2n : ¬ len req.Title > 100 := by omega
  simp only [handleCreateEvent, hm, hb, h1, h2n, h3, h4, h5]
  simp [callCtx, eventOf]

/-- A request that fails validation is answered with 400 without any service
call: the state comes back as it was. -/
theorem handleCreateEvent_of_invalid {σ : Type} (env : Env) (svc : EventService σ) (r : Request)
    (req : CreateEventRequest) (s : σ) (hm : r.Method = "POST") (hb : r.Body = some req)
    (hv : ¬ passesValidation req) :
    (handleCreateEvent env svc r s).resp.status = StatusBadRequest ∧
      (handleCreateEvent env svc r s).state = s := by
  simp only [handleCreateEvent, hm, hb]
  by_cases h1 : req.Title = ""
  · simp [h1, httpError]
  by_cases h2 : len req.Title > 100
  · simp [h1, h2, httpError]
  by_cases h3 : (req.StartTime.IsZero || req.EndTime.IsZero) = true
  · simp [h1, h2, h3, httpError]
  by_cases h4 : (!req.StartTime.Before req.EndTime) = true
  · simp [h1, h2, h3, h4, httpError]
  · exfalso
    apply hv
    simp only [Bool.or_eq_true, not_or, Bool.not_eq_true] at h3
    cases h5 : req.StartTime.Before req.EndTime with
    | false => simp [h5] at h4
    | true => exact ⟨h1, by omega, h3.1, h3.2, h5⟩

/-- The service state and call log after a request that passes validation:
exactly one call, with the event built from the request. -/
theorem handleCreateEvent_traced_state {σ : Type} (env : Env) (svc : EventService σ)
    (r : Request) (req : CreateEventRequest) (s : σ) (log : List Call) (hm : r.Method = "POST")
    (hb : r.Body = some req) (hv : passesValidation req) :
    (handleCreateEvent env (traced svc) r (s, log)).state =
      ((svc.CreateEvent (callCtx env r) (eventOf env req) s).2,
        log ++ [Call.create (callCtx env r) (eventOf env req)]) := by
  rw [handleCreateEvent_of_valid env (traced svc) r req (s, log) hm hb hv]
  rcases h : svc.CreateEvent (callCtx env r) (eventOf env req) s with ⟨⟨e, _ | err⟩, s1⟩ <;>
    simp [traced, h]

/-- C1: a create request that breaks a validation rule (empty title, title
longer than 100, a zero start or end time, start not strictly before end) is
answered with 400 and the service is not called (state and call log are
untouched); and every event that reaches the service has a non-empty title of
length at most 100, non-zero timestamps and start strictly before end. -/
theorem handleCreateEvent_rejects_invalid {σ : Type} (env : Env) (svc : EventService σ)
    (r : Request) (req : CreateEventRequest) (s : σ) (log : List Call)
    (hm : r.Method = "POST") (hb : r.Body = some req) :
    ((req.Title = "" ∨ 100 < req.Title.length ∨ 100 < len req.Title ∨
        req.StartTime.IsZero = true ∨ req.EndTime.IsZero = true ∨
        req.StartTime.Before req.EndTime = false) →
      (handleCreateEvent env (traced svc) r (s, log)).resp.status = 400 ∧
      (handleCreateEvent env (traced svc) r (s, log)).state = (s, log)) ∧
    (∀ ctx e, Call.create ctx e ∈ (handleCreateEvent env (traced svc) r (s, [])).state.2 →
      e.Title ≠ "" ∧ e.Title.length ≤ 100 ∧ len e.Title ≤ 100 ∧ e.StartTime.IsZero = false ∧
        e.EndTime.IsZero = false ∧ e.StartTime.Before e.EndTime = true) := by
  constructor
  · intro hviol
    have hv : ¬ passesValidation req := by
      rintro ⟨h1, h2, h3, h4, h5⟩
      have hlen := length_le_len req.Title
      rcases hviol with h | h | h | h | h | h
      · exact h1 h
      · omega
      · omega
      · simp [h3] at h
      · simp [h4] at h
      · simp [h5] at h
    exact handleCreateEvent_of_invalid env (traced svc) r req (s, log) hm hb hv
  · intro ctx e hmem
    by_cases hv : passesValidation req
    · rw [handleCreateEvent_traced_state env svc r req s [] hm hb hv] at hmem
      simp only [List.nil_append, List.mem_singleton, Call.create.injEq] at hmem
      obtain ⟨-, he⟩ := hmem
      subst he
      obtain ⟨h1, h2, h3, h4, h5⟩ := hv
      have hlen := length_le_len req.Title
      exact ⟨h1, by simp only [eventOf]; omega, h2, h3, h4, h5⟩
    · rw [(handleCreateEvent_of_invalid env (traced svc) r req (s, []) hm hb hv).2] at hmem
      simp at hmem

/-- C1 at a request with an empty title and the recording test double: 400, the
double untouched, nothing logged. -/
theorem handleCreateEvent_rejects_invalid_witness :
    (handleCreateEvent sampleEnv (traced mockService)
        ⟨"POST", "/events", ⟨none⟩, some ⟨"", "no title", t0900, t0915⟩⟩
        (({} : mockEventService), [])).resp.status = 400 ∧
    (handleCreateEvent sampleEnv (traced mockService)
        ⟨"POST", "/events", ⟨none⟩, some ⟨"", "no title", t0900, t0915⟩⟩
        (({} : mockEventService), [])).state = (({} : mockEventService), []) :=
  (handleCreateEvent_rejects_invalid sampleEnv mockService
    ⟨"POST", "/events", ⟨none⟩, some ⟨"", "no title", t0900, t0915⟩⟩
    ⟨"", "no title", t0900, t0915⟩ {} [] rfl rfl).1 (Or.inl rfl)

/-- C2 as stated fails: a title of seven characters and a start (the zero
time) strictly before the end, over a database whose insert succeeds, is
answered with 400 "start_time and end_time are required", and no call is
made. -/
theorem handleCreateEvent_zero_start_rejected :
    ("Standup" ≠ "" ∧ "Standup".length ≤ 100 ∧ Time.Before ⟨0, 0⟩ t0915 = true) ∧
    (handleCreateEvent sampleEnv (traced (eventService (pgEventStore emptyDB)))
        zeroStartRequest ((), [])).resp =
      httpError "start_time and end_time are required" 400 ∧
    (handleCreateEvent sampleEnv (traced (eventService (pgEventStore emptyDB)))
        zeroStartRequest ((), [])).state.2 = [] := by
  decide

/-- C2, amended: a create request with a non-empty title of at most 100 bytes,
both timestamps non-zero and start strictly before end is answered with 201
whenever the service reports no error; the event handed to the service carries
the title, description, start and end of the request, with the fresh id and the
current time; and over the service on the provider, when the insert succeeds,
the body is exactly that event. -/
theorem handleCreateEvent_valid_created {σ δ : Type} (env : Env) (svc : EventService σ)
    (db : SQLDB δ) (r : Request) (req : CreateEventRequest) (s : σ) (d : δ)
    (hm : r.Method = "POST") (hb : r.Body = some req)
    (ht : req.Title ≠ "") (hl : len req.Title ≤ 100)
    (hs : req.StartTime.IsZero = false) (he : req.EndTime.IsZero = false)
    (hlt : req.StartTime.Before req.EndTime = true) :
    ((svc.CreateEvent (callCtx env r) (eventOf env req) s).1.2 = none →
      (handleCreateEvent env (traced svc) r (s, [])).resp =
        ⟨201, "application/json",
          encodeEventPtr env (svc.CreateEvent (callCtx env r) (eventOf env req) s).1.1⟩) ∧
    (handleCreateEvent env (traced svc) r (s, [])).state.2 =
      [Call.create (callCtx env r) (eventOf env req)] ∧
    ((eventOf env req).Title = req.Title ∧ (eventOf env req).Description = req.Description ∧
      (eventOf env req).StartTime = req.StartTime ∧ (eventOf env req).EndTime = req.EndTime ∧
      (eventOf env req).ID = env.newID ∧ (eventOf env req).CreatedAt = env.now) ∧
    ((db.ExecContext (callCtx env r) (eventOf env req) d).1 = none →
      (handleCreateEvent env (traced (eventService (pgEventStore db))) r (d, [])).resp =
        ⟨201, "application/json", env.encEvent (eventOf env req) ++ "\n"⟩) := by
  have hv : passesValidation req := ⟨ht, hl, hs, he, hlt⟩
  refine ⟨?_, ?_, ⟨rfl, rfl, rfl, rfl, rfl, rfl⟩, ?_⟩
  · intro hok
    rw [handleCreateEvent_of_valid env (traced svc) r req (s, []) hm hb hv]
    rcases h : svc.CreateEvent (callCtx env r) (eventOf env req) s with ⟨⟨e, _ | err⟩, s1⟩
    · simp [traced, h, writeJSON, StatusCreated]
    · simp [h] at hok
  · rw [handleCreateEvent_traced_state env svc r req s [] hm hb hv]
    rfl
  · intro hok
    rw [handleCreateEvent_of_valid env _ r req (d, []) hm hb hv]
    simp [traced, eventService, pgEventStore, hok, writeJSON, StatusCreated, encodeEventPtr]

/-- C2, amended, at the "Standup" request of the spec over a database whose
insert succeeds. -/
theorem handleCreateEvent_valid_created_witness :
    (handleCreateEvent sampleEnv (traced (eventService (pgEventStore emptyDB)))
        ⟨"POST", "/events", ⟨none⟩, some ⟨"Standup", "", t0900, t0915⟩⟩ ((), [])).resp =
      ⟨201, "application/json",
        sampleEnv.encEvent (eventOf sampleEnv ⟨"Standup", "", t0900, t0915⟩) ++ "\n"⟩ :=
  (handleCreateEvent_valid_created sampleEnv mockService emptyDB
    ⟨"POST", "/events", ⟨none⟩, some ⟨"Standup", "", t0900, t0915⟩⟩
    ⟨"Standup", "", t0900, t0915⟩ {} () rfl rfl (by decide) (by decide) (by decide) (by decide)
    (by decide)).2.2.2 rfl

/-- C3 at a title of 51 two-byte characters with valid timestamps: the length
rule counts 102 bytes and answers 400 "title must be at most 100 characters";
the service is not called. -/
theorem handleCreateEvent_length_in_bytes :
    accentedTitle.length = 51 ∧ len accentedTitle = 102 ∧
    (handleCreateEvent sampleEnv (traced mockService)
        ⟨"POST", "/events", ⟨none⟩, some ⟨accentedTitle, "", t0900, t0915⟩⟩
        (({} : mockEventService), [])).resp =
      httpError "title must be at most 100 characters" 400 ∧
    (handleCreateEvent sampleEnv (traced mockService)
        ⟨"POST", "/events", ⟨none⟩, some ⟨accentedTitle, "", t0900, t0915⟩⟩
        (({} : mockEventService), [])).state.2 = [] := by
  decide

/-- The order in which `handleCreateEvent` tries its rules, with the length
rule as the code measures it (`len`, in bytes): title empty, `len` above 100
(any title of more than 100 characters is such a title), a zero timestamp,
start not before end; the response is the message of the first of these that
fails, with status 400 and no service call; equal start and end give 400. -/
theorem handleCreateEvent_first_failure {σ : Type} (env : Env) (svc : EventService σ)
    (r : Request) (req : CreateEventRequest) (s : σ)
    (hm : r.Method = "POST") (hb : r.Body = some req) :
    (req.Title = "" →
      handleCreateEvent env svc r s = ⟨httpError "title is required" 400, [], s⟩) ∧
    (req.Title ≠ "" → (100 < len req.Title ∨ 100 < req.Title.length) →
      handleCreateEvent env svc r s =
        ⟨httpError "title must be at most 100 characters" 400, [], s⟩) ∧
    (req.Title ≠ "" → len req.Title ≤ 100 →
      (req.StartTime.IsZero = true ∨ req.EndTime.IsZero = true) →
      handleCreateEvent env svc r s =
        ⟨httpError "start_time and end_time are required" 400, [], s⟩) ∧
    (req.Title ≠ "" → len req.Title ≤ 100 → req.StartTime.IsZero = false →
      req.EndTime.IsZero = false → req.StartTime.Before req.EndTime = false →
      handleCreateEvent env svc r s =
        ⟨httpError "start_time must be before end_time" 400, [], s⟩) ∧
    (req.StartTime = req.EndTime →
      (handleCreateEvent env svc r s).resp.status = 400 ∧
        (handleCreateEvent env svc r s).state = s) := by
  refine ⟨?_, ?_, ?_, ?_, ?_⟩
  · intro h1
    simp [handleCreateEvent, hm, hb, h1, StatusBadRequest]
  · intro h1 h2
    have hlen := length_le_len req.Title
    have h2b : len req.Title > 100 := by omega
    simp [handleCreateEvent, hm, hb, h1, h2b, StatusBadRequest]
  · intro h1 h2 h3
    have h2n : ¬ len req.Title > 100 := by omega
    have h3b : (req.StartTime.IsZero || req.EndTime.IsZero) = true := by
      rcases h3 with h | h <;> simp [h]
    simp only [handleCreateEvent, hm, hb, h1, h2n, h3b]
    simp [StatusBadRequest]
  · intro h1 h2 h3 h4 h5
    have h2n : ¬ len req.Title > 100 := by omega
    simp only [handleCreateEvent, hm, hb, h1, h2n, h3, h4, h5]
    simp [StatusBadRequest]
  · intro heq
    have hv : ¬ passesValidation req := by
      rintro ⟨-, -, -, -, h5⟩
      rw [heq, Time.Before_irrefl] at h5
      exact Bool.false_ne_true h5
    exact handleCreateEvent_of_invalid env svc r req s hm hb hv

/-- A request with an empty title and both timestamps missing: the message
is that of the title rule. -/
theorem handleCreateEvent_first_failure_witness :
    handleCreateEvent sampleEnv mockService
        ⟨"POST", "/events", ⟨none⟩, some ⟨"", "", ⟨0, 0⟩, ⟨0, 0⟩⟩⟩ {} =
      ⟨httpError "title is required" 400, [], {}⟩ :=
  (handleCreateEvent_first_failure sampleEnv mockService
    ⟨"POST", "/events", ⟨none⟩, some ⟨"", "", ⟨0, 0⟩, ⟨0, 0⟩⟩⟩ ⟨"", "", ⟨0, 0⟩, ⟨0, 0⟩⟩ {}
    rfl rfl).1 rfl

/-- C4 at a title of 51 two-byte characters with both timestamps missing: the
title is not empty and has no more than 100 characters, so the first rule
that fails is the timestamp rule; the handler, which counts 102 bytes, answers
with the message of the length rule instead of "start_time and end_time are
required", and does not call the service. -/
theorem handleCreateEvent_first_failure_in_bytes :
    (accentedTitle ≠ "" ∧ accentedTitle.length ≤ 100 ∧ Time.IsZero ⟨0, 0⟩ = true) ∧
    (handleCreateEvent sampleEnv (traced mockService)
        ⟨"POST", "/events", ⟨none⟩, some ⟨accentedTitle, "", ⟨0, 0⟩, ⟨0, 0⟩⟩⟩
        (({} : mockEventService), [])) =
      ⟨httpError "title must be at most 100 characters" 400, [], ({}, [])⟩ ∧
    (handleCreateEvent sampleEnv (traced mockService)
        ⟨"POST", "/events", ⟨none⟩, some ⟨accentedTitle, "", ⟨0, 0⟩, ⟨0, 0⟩⟩⟩
        (({} : mockEventService), [])).resp ≠
      httpError "start_time and end_time are required" 400 := by
  decide

/-! ## The get-by-id handler -/

/-- C5 at `GET /events/not-a-uuid` with the test double of
`TestHandleGetEventByID_InvalidUUID`: `uuid.Parse` fails, the response is
404 "invalid UUID" (the test expects 400), and the double is untouched
(`getCalled` stays false). -/
theorem handleGetEventByID_not_a_uuid :
    Parse (goBytes "not-a-uuid") = none ∧
    handleGetEventByID sampleEnv mockService ⟨"GET", "/events/not-a-uuid", ⟨none⟩, none⟩ {} =
      some ⟨httpError "invalid UUID" 404, [], {}⟩ := by
  decide

/-- The id segment of a path under `/events/` and the branch taken on it. -/
theorem handleGetEventByID_of_path {σ : Type} (env : Env) (svc : EventService σ) (r : Request)
    (rest : String) (s : σ) (hm : r.Method = "GET") (hp : r.Path = "/events/" ++ rest) :
    handleGetEventByID env svc r s =
      if rest = "" then some ⟨httpError "missing event id" StatusBadRequest, [], s⟩
      else
        match env.uuidParse (goBytes rest) with
        | none => some ⟨httpError "invalid UUID" StatusNotFound, [], s⟩
        | some id =>
          match svc.GetEvent (callCtx env r) id s with
          | ((_, some err), s1) =>
            some ⟨httpError "failed to get event" StatusInternalServerError,
              ["Get error: " ++ err.Error], s1⟩
          | ((none, none), s1) => some ⟨httpError "event not found" StatusNotFound, [], s1⟩
          | ((some e, none), s1) =>
            some ⟨writeJSON StatusOK (encodeEventPtr env (some e)), [], s1⟩ := by
  have hlen := len_events_prefix rest
  simp only [handleGetEventByID, hm, hp, hlen, drop_events_prefix, goBytes_eq_nil]
  simp [callCtx, hp]

/-- C6: on a GET request, the path `/events/` (empty id segment) is answered
with 400 "missing event id", and a path `/events/` followed by a non-empty
segment that `uuid.Parse` rejects is answered with 404 "invalid UUID"; in both
cases the service is left alone. -/
theorem handleGetEventByID_bad_id {σ : Type} (env : Env) (svc : EventService σ) (r : Request)
    (s : σ) (hm : r.Method = "GET") :
    (r.Path = "/events/" →
      handleGetEventByID env svc r s = some ⟨httpError "missing event id" 400, [], s⟩) ∧
    (∀ rest : String, r.Path = "/events/" ++ rest → rest ≠ "" →
      env.uuidParse (goBytes rest) = none →
      handleGetEventByID env svc r s = some ⟨httpError "invalid UUID" 404, [], s⟩) := by
  constructor
  · intro hp
    have hp2 : r.Path = "/events/" ++ "" := by rw [hp]; rfl
    rw [handleGetEventByID_of_path env svc r "" s hm hp2]
    simp [StatusBadRequest]
  · intro rest hp hne hparse
    rw [handleGetEventByID_of_path env svc r rest s hm hp]
    simp [hne, hparse, StatusNotFound]

/-- C6 at `GET /events/123`, an id of the wrong length. -/
theorem handleGetEventByID_bad_id_witness :
    handleGetEventByID sampleEnv mockService ⟨"GET", "/events/123", ⟨none⟩, none⟩ {} =
      some ⟨httpError "invalid UUID" 404, [], {}⟩ :=
  (handleGetEventByID_bad_id sampleEnv mockService ⟨"GET", "/events/123", ⟨none⟩, none⟩ {}
    rfl).2 "123" (by decide) (by decide) (by decide)

/-- C7: on a GET request whose id segment parses to `id`, the service's
`GetEvent` is called exactly once, with `id`; an error gives 500 "failed to get
event" whatever the error says, no error and no event gives 404 "event not
found", and an event gives 200 with that event as the JSON body. -/
theorem handleGetEventByID_outcome {σ : Type} (env : Env) (svc : EventService σ) (r : Request)
    (rest : String) (id : UUID) (s : σ) (log : List Call)
    (hm : r.Method = "GET") (hp : r.Path = "/events/" ++ rest) (hne : rest ≠ "")
    (hparse : env.uuidParse (goBytes rest) = some id) :
    ∃ h : Handled (σ × List Call),
      handleGetEventByID env (traced svc) r (s, log) = some h ∧
      h.state = ((svc.GetEvent (callCtx env r) id s).2, log ++ [Call.get (callCtx env r) id]) ∧
      (∀ err, (svc.GetEvent (callCtx env r) id s).1.2 = some err →
        h.resp = httpError "failed to get event" 500) ∧
      ((svc.GetEvent (callCtx env r) id s).1 = (none, none) →
        h.resp = httpError "event not found" 404) ∧
      (∀ e, (svc.GetEvent (callCtx env r) id s).1 = (some e, none) →
        h.resp = ⟨200, "application/json", env.encEvent e ++ "\n"⟩) := by
  rw [handleGetEventByID_of_path env (traced svc) r rest (s, log) hm hp]
  simp only [hne, if_false, hparse]
  rcases h : svc.GetEvent (callCtx env r) id s with ⟨⟨_ | e, _ | err⟩, s1⟩ <;>
    simp [traced, h, StatusInternalServerError, StatusNotFound, StatusOK, writeJSON,
      encodeEventPtr]

/-- C7 at `GET /events/123e4567-e89b-12d3-a456-426614174000` with a service
that has an event to return. -/
theorem handleGetEventByID_outcome_witness :
    ∃ h : Handled (mockEventService × List Call),
      handleGetEventByID sampleEnv (traced mockService)
        ⟨"GET", "/events/123e4567-e89b-12d3-a456-426614174000", ⟨none⟩, none⟩
        (foundMock, []) = some h ∧
      h.state.2 = [Call.get ⟨some ⟨63839700005, 0⟩⟩
        ⟨[18, 62, 69, 103, 232, 155, 18, 211, 164, 86, 66, 102, 20, 23, 64, 0]⟩] ∧
      h.resp = ⟨200, "application/json", "\x7b\"title\":\"Found\"\x7d\n"⟩ := by
  obtain ⟨h, h1, h2, -, -, h3⟩ := handleGetEventByID_outcome sampleEnv mockService
    ⟨"GET", "/events/123e4567-e89b-12d3-a456-426614174000", ⟨none⟩, none⟩
    "123e4567-e89b-12d3-a456-426614174000"
    ⟨[18, 62, 69, 103, 232, 155, 18, 211, 164, 86, 66, 102, 20, 23, 64, 0]⟩
    foundMock [] rfl (by decide) (by decide) (by decide)
  refine ⟨h, h1, ?_, ?_⟩
  · rw [h2]
    decide
  · rw [h3 _ rfl]
    decide

/-! ## Service errors on create, and the list handler -/

/-- C8: when a create request passes validation and the service's
`CreateEvent` returns an error, the response is 400 with the message of that
error as body (never 201 or 500), after exactly one service call. -/
theorem handleCreateEvent_service_error {σ : Type} (env : Env) (svc : EventService σ)
    (r : Request) (req : CreateEventRequest) (s : σ) (err : GoError)
    (hm : r.Method = "POST") (hb : r.Body = some req) (hv : passesValidation req)
    (herr : (svc.CreateEvent (callCtx env r) (eventOf env req) s).1.2 = some err) :
    (handleCreateEvent env (traced svc) r (s, [])).resp =
      ⟨400, "text/plain; charset=utf-8", err.Error ++ "\n"⟩ ∧
    (handleCreateEvent env (traced svc) r (s, [])).resp.status ≠ 201 ∧
    (handleCreateEvent env (traced svc) r (s, [])).resp.status ≠ 500 ∧
    (handleCreateEvent env (traced svc) r (s, [])).state.2 =
      [Call.create (callCtx env r) (eventOf env req)] := by
  have hresp : (handleCreateEvent env (traced svc) r (s, [])).resp =
      ⟨400, "text/plain; charset=utf-8", err.Error ++ "\n"⟩ := by
    rw [handleCreateEvent_of_valid env (traced svc) r req (s, []) hm hb hv]
    rcases h : svc.CreateEvent (callCtx env r) (eventOf env req) s with ⟨⟨e, _ | err1⟩, s1⟩
    · simp [h] at herr
    · simp only [h, Option.some.injEq] at herr
      subst herr
      simp [traced, h, httpError, StatusBadRequest]
  refine ⟨hresp, ?_, ?_, ?_⟩
  · rw [hresp]
    show (400 : Nat) ≠ 201
    decide
  · rw [hresp]
    show (400 : Nat) ≠ 500
    decide
  · rw [handleCreateEvent_traced_state env svc r req s [] hm hb hv]
    rfl

/-- C8 at the request of `TestHandleCreateEvent_ServiceError`. -/
theorem handleCreateEvent_service_error_witness :
    (handleCreateEvent sampleEnv (traced mockService)
        ⟨"POST", "/events", ⟨none⟩, some ⟨"Bad", "desc", t0900, t0915⟩⟩
        (failingMock, [])).resp =
      ⟨400, "text/plain; charset=utf-8", "validation error\n"⟩ :=
  (handleCreateEvent_service_error sampleEnv mockService
    ⟨"POST", "/events", ⟨none⟩, some ⟨"Bad", "desc", t0900, t0915⟩⟩
    ⟨"Bad", "desc", t0900, t0915⟩ failingMock (GoError.msg "validation error")
    rfl rfl (by decide) rfl).1

/-- The provider's `ListEvents` returns either an error and the nil slice, or
no error and a non-nil slice. -/
theorem pgEventStore_ListEvents_shape {δ : Type} (db : SQLDB δ) (ctx : Context) (d : δ) :
    (∃ err, ((pgEventStore db).ListEvents ctx d).1 = (none, some err)) ∨
    (∃ es, ((pgEventStore db).ListEvents ctx d).1 = (some es, none)) := by
  simp only [pgEventStore]
  rcases db.QueryContext ctx d with ⟨_ | rows, d1⟩
  · exact Or.inl ⟨_, rfl⟩
  · rcases hs : scanRows rows.scans [] with err | es
    · exact Or.inl ⟨err, by simp [hs]⟩
    · rcases he : rows.err with _ | err
      · exact Or.inr ⟨es, by simp [hs, he]⟩
      · exact Or.inl ⟨err, by simp [hs, he]⟩

/-- A JSON array text is not the text `null`. -/
theorem bracket_ne_null (x : String) : "[" ++ x ≠ "null\n" := by
  intro h
  have hd := congrArg String.data h
  rw [String.data_append] at hd
  have h0 := congrArg List.head? hd
  simp at h0

/-- C9: on a GET request, `handleListEvents` answers 500 "failed to list
events" when the service's `ListEvents` returns an error, and otherwise 200 with the
JSON array of the returned events, in their order; over the service on the
provider the body is never `null`, and when the query delivers no rows it is
the empty array. -/
theorem handleListEvents_response {σ δ : Type} (env : Env) (svc : EventService σ)
    (db : SQLDB δ) (r : Request) (s : σ) (d : δ) (hm : r.Method = "GET") :
    (∀ err, (svc.ListEvents (callCtx env r) s).1.2 = some err →
      (handleListEvents env svc r s).resp = httpError "failed to list events" 500) ∧
    (∀ es, (svc.ListEvents (callCtx env r) s).1 = (some es, none) →
      (handleListEvents env svc r s).resp =
        ⟨200, "application/json", "[" ++ ",".intercalate (es.map env.encEvent) ++ "]\n"⟩) ∧
    (handleListEvents env (eventService (pgEventStore db)) r d).resp.body ≠ "null\n" ∧
    (∀ d1, db.QueryContext (callCtx env r) d = (.ok ⟨[], none⟩, d1) →
      (handleListEvents env (eventService (pgEventStore db)) r d).resp =
        ⟨200, "application/json", "[]\n"⟩) := by
  have herror : ∀ (τ : Type) (sv : EventService τ) (t : τ) (err : GoError),
      (sv.ListEvents (callCtx env r) t).1.2 = some err →
      (handleListEvents env sv r t).resp = httpError "failed to list events" 500 := by
    intro τ sv t err h
    simp only [handleListEvents, hm]
    rcases hl : sv.ListEvents (callCtx env r) t with ⟨⟨es, _ | err1⟩, t1⟩
    · simp [hl] at h
    · simp [callCtx] at hl
      simp [hl, StatusInternalServerError]
  have hsome : ∀ (τ : Type) (sv : EventService τ) (t : τ) (es : List Event),
      (sv.ListEvents (callCtx env r) t).1 = (some es, none) →
      (handleListEvents env sv r t).resp =
        ⟨200, "application/json", "[" ++ ",".intercalate (es.map env.encEvent) ++ "]\n"⟩ := by
    intro τ sv t es h
    simp only [handleListEvents, hm]
    rcases hl : sv.ListEvents (callCtx env r) t with ⟨⟨es1, err1⟩, t1⟩
    simp only [hl, Prod.mk.injEq] at h
    obtain ⟨h1, h2⟩ := h
    subst h1 h2
    simp [callCtx] at hl
    simp [hl, StatusOK, writeJSON, encodeEventSlice]
  refine ⟨herror σ svc s, hsome σ svc s, ?_, ?_⟩
  · rcases pgEventStore_ListEvents_shape db (callCtx env r) d with ⟨err, he⟩ | ⟨es, he⟩
    · have h2 : ((eventService (pgEventStore db)).ListEvents (callCtx env r) d).1.2 = some err := by
        show ((pgEventStore db).ListEvents (callCtx env r) d).1.2 = some err
        rw [he]
      rw [herror δ _ d err h2]
      decide
    · have h2 : ((eventService (pgEventStore db)).ListEvents (callCtx env r) d).1 =
          (some es, none) := he
      rw [hsome δ _ d es h2]
      show "[" ++ ",".intercalate (es.map env.encEvent) ++ "]\n" ≠ "null\n"
      rw [String.append_assoc]
      exact bracket_ne_null _
  · intro d1 hq
    have h2 : ((eventService (pgEventStore db)).ListEvents (callCtx env r) d).1 =
        (some [], none) := by
      show ((pgEventStore db).ListEvents (callCtx env r) d).1 = (some [], none)
      simp [pgEventStore, hq, scanRows]
    rw [hsome δ _ d [] h2]
    simp only [List.map_nil, Response.mk.injEq, true_and]
    decide

/-- C9 at `GET /events` over an empty table: 200 and the empty array. -/
theorem handleListEvents_response_witness :
    (handleListEvents sampleEnv (eventService (pgEventStore emptyDB))
        ⟨"GET", "/events", ⟨none⟩, none⟩ ()).resp = ⟨200, "application/json", "[]\n"⟩ :=
  (handleListEvents_response sampleEnv mockService emptyDB ⟨"GET", "/events", ⟨none⟩, none⟩
    {} () rfl).2.2.2 () rfl

/-! ## The service layer -/

/-- C10: for every store, each operation of `eventService` returns exactly what
the store's operation returns on the same arguments (result, error and store
state), and on a store that records its invocations it leaves exactly one
record, of the corresponding operation with the same arguments. -/
theorem eventService_passthrough {σ : Type} (store : EventService σ) :
    (∀ ctx e s, (eventService store).CreateEvent ctx e s = store.CreateEvent ctx e s) ∧
    (∀ ctx s, (eventService store).ListEvents ctx s = store.ListEvents ctx s) ∧
    (∀ ctx id s, (eventService store).GetEvent ctx id s = store.GetEvent ctx id s) ∧
    (∀ ctx e s log, (eventService (traced store)).CreateEvent ctx e (s, log) =
      ((store.CreateEvent ctx e s).1, ((store.CreateEvent ctx e s).2,
        log ++ [Call.create ctx e]))) ∧
    (∀ ctx s log, (eventService (traced store)).ListEvents ctx (s, log) =
      ((store.ListEvents ctx s).1, ((store.ListEvents ctx s).2, log ++ [Call.list ctx]))) ∧
    (∀ ctx id s log, (eventService (traced store)).GetEvent ctx id (s, log) =
      ((store.GetEvent ctx id s).1, ((store.GetEvent ctx id s).2,
        log ++ [Call.get ctx id]))) :=
  ⟨fun _ _ _ => rfl, fun _ _ => rfl, fun _ _ _ => rfl, fun _ _ _ _ => rfl, fun _ _ _ => rfl,
    fun _ _ _ _ => rfl⟩

/-! ## The provider: get by id -/

theorem selectByID_of_absent (table : List Row) (id : UUID) (h : ∀ row ∈ table, row.id ≠ id) :
    selectByID table id = .error GoError.ErrNoRows := by
  have hf : table.find? (fun row => decide (row.id = id)) = none := by
    rw [List.find?_eq_none]
    intro row hrow
    simpa using h row hrow
  simp [selectByID, hf]

theorem selectByID_of_present (before after : List Row) (row : Row) (id : UUID)
    (h : ∀ x ∈ before, x.id ≠ id) (hid : row.id = id) :
    selectByID (before ++ row :: after) id = .ok row.toEvent := by
  have hb : before.find? (fun x => decide (x.id = id)) = none := by
    rw [List.find?_eq_none]
    intro x hx
    simpa using h x hx
  simp [selectByID, List.find?_append, hb, hid]

/-- C11: the provider's `GetEvent` returns no event and no error when the scan
reports `sql.ErrNoRows` (the query has no row), no event and the error itself
for any other error, and the scanned event without error when a row matches;
it never returns both an event and an error. On the table: an id that no row
has gives no event and no error, and an id that a row has gives the event of
the first such row, whose description is empty when the column is null. -/
theorem pgEventStore_GetEvent_outcome {δ : Type} (db : SQLDB δ) (ctx : Context) (id : UUID)
    (d : δ) (insert : Context → Event → List Row → Option GoError × List Row) :
    (∀ err d1, db.QueryRowContext ctx id d = (.error err, d1) → err.IsErrNoRows = true →
      (pgEventStore db).GetEvent ctx id d = ((none, none), d1)) ∧
    (∀ err d1, db.QueryRowContext ctx id d = (.error err, d1) → err.IsErrNoRows = false →
      (pgEventStore db).GetEvent ctx id d = ((none, some err), d1)) ∧
    (∀ e d1, db.QueryRowContext ctx id d = (.ok e, d1) →
      (pgEventStore db).GetEvent ctx id d = ((some e, none), d1)) ∧
    ¬ (((pgEventStore db).GetEvent ctx id d).1.1.isSome = true ∧
        ((pgEventStore db).GetEvent ctx id d).1.2.isSome = true) ∧
    (∀ table : List Row, (∀ row ∈ table, row.id ≠ id) →
      (pgEventStore (tableDB insert)).GetEvent ctx id table = ((none, none), table)) ∧
    (∀ (before after : List Row) (row : Row), (∀ x ∈ before, x.id ≠ id) → row.id = id →
      (pgEventStore (tableDB insert)).GetEvent ctx id (before ++ row :: after) =
        ((some row.toEvent, none), before ++ row :: after) ∧
      (row.description = none → row.toEvent.Description = "") ∧
      (∀ text, row.description = some text → row.toEvent.Description = text)) := by
  refine ⟨?_, ?_, ?_, ?_, ?_, ?_⟩
  · intro err d1 hq hno
    simp [pgEventStore, hq, hno]
  · intro err d1 hq hno
    simp [pgEventStore, hq, hno]
  · intro e d1 hq
    simp [pgEventStore, hq]
  · simp only [pgEventStore]
    rcases db.QueryRowContext ctx id d with ⟨err | e, d1⟩
    · cases hno : err.IsErrNoRows <;> simp [hno]
    · simp
  · intro table habsent
    simp [pgEventStore, tableDB, selectByID_of_absent table id habsent, GoError.IsErrNoRows]
  · intro before after row hbefore hid
    refine ⟨?_, ?_, ?_⟩
    · simp [pgEventStore, tableDB, selectByID_of_present before after row id hbefore hid]
    · intro hnull
      simp [Row.toEvent, hnull]
    · intro text htext
      simp [Row.toEvent, htext]

/-- C11 on the sample table: the row "Standup", stored without description, is
returned with the empty description and no error. -/
theorem pgEventStore_GetEvent_outcome_witness :
    (pgEventStore (tableDB storeRow)).GetEvent ⟨none⟩ ⟨List.replicate 16 1⟩ sampleTable =
      ((some ⟨⟨List.replicate 16 1⟩, "Standup", "", t0900, t0915, t0900⟩, none),
        sampleTable) :=
  ((pgEventStore_GetEvent_outcome emptyDB ⟨none⟩ ⟨List.replicate 16 1⟩ () storeRow).2.2.2.2.2
    [⟨⟨List.replicate 16 3⟩, "Review", some "weekly", t0915, ⟨63839700000, 0⟩, t0900⟩]
    [⟨⟨List.replicate 16 2⟩, "Retro", some "", ⟨63839696400, 500⟩, t0915, t0900⟩]
    ⟨⟨List.replicate 16 1⟩, "Standup", none, t0900, t0915, t0900⟩
    (by decide) rfl).1

/-! ## The provider: list -/

theorem scanRows_ok_append (es : List Event) (rest : List (Except GoError Event))
    (acc : List Event) :
    scanRows (es.map Except.ok ++ rest) acc = scanRows rest (acc ++ es) := by
  induction es generalizing acc with
  | nil => simp
  | cons e es ih =>
    have hstep : scanRows (Except.ok e :: (es.map Except.ok ++ rest)) acc =
        scanRows (es.map Except.ok ++ rest) (acc ++ [e]) := rfl
    rw [List.map_cons, List.cons_append, hstep, ih]
    simp

theorem scanRows_all_ok (es : List Event) : scanRows (es.map Except.ok) [] = .ok es := by
  have h := scanRows_ok_append es [] []
  simp only [List.append_nil, List.nil_append] at h
  rw [h]
  rfl

theorem scanRows_first_error (es : List Event) (err : GoError)
    (rest : List (Except GoError Event)) :
    scanRows (es.map Except.ok ++ Except.error err :: rest) [] = .error err := by
  rw [scanRows_ok_append]
  rfl

theorem Time.le_total (t u : Time) : Time.le t u ∨ Time.le u t := by
  simp only [Time.le, Time.Before, Bool.or_eq_false_iff, Bool.and_eq_false_imp,
    decide_eq_false_iff_not, beq_iff_eq]
  omega

theorem Time.le_trans (t u v : Time) (h1 : Time.le t u) (h2 : Time.le u v) : Time.le t v := by
  simp only [Time.le, Time.Before, Bool.or_eq_false_iff, Bool.and_eq_false_imp,
    decide_eq_false_iff_not, beq_iff_eq] at h1 h2 ⊢
  omega

/-- The ordered query yields every row of the table once, in non-decreasing
order of `start_time`. -/
theorem selectOrdered_sorted_perm (table : List Row) :
    (selectOrdered table).Perm (table.map Row.toEvent) ∧
    (selectOrdered table).Sorted (fun a b => Time.le a.StartTime b.StartTime) := by
  haveI : IsTotal Row Row.startLE := ⟨fun a b => Time.le_total a.start_time b.start_time⟩
  haveI : IsTrans Row Row.startLE :=
    ⟨fun a b c hab hbc => Time.le_trans a.start_time b.start_time c.start_time hab hbc⟩
  constructor
  · exact (List.perm_insertionSort Row.startLE table).map Row.toEvent
  · have hs := List.sorted_insertionSort Row.startLE table
    exact List.Pairwise.map Row.toEvent (fun a b hab => hab) hs

theorem tableDB_ListEvents (insert : Context → Event → List Row → Option GoError × List Row)
    (ctx : Context) (table : List Row) :
    (pgEventStore (tableDB insert)).ListEvents ctx table =
      ((some (selectOrdered table), none), table) := by
  simp [pgEventStore, tableDB, scanRows_all_ok]

/-- C12: for every content of the table, the provider's `ListEvents` returns
without error the events of all rows, each once, in non-decreasing order of
start time, and `GET /events` answers 200 with exactly that array; two tables
with the same rows in different insertion order give the same events up to the
order of equal start times. For any database, the provider returns the scanned
events one per row in the order of the result set (the empty non-nil slice for
no rows), and the nil slice with the error when the query fails, when a scan
fails, or when the iteration ends with an error. -/
theorem pgEventStore_ListEvents_ordered {δ : Type} (env : Env) (db : SQLDB δ)
    (insert : Context → Event → List Row → Option GoError × List Row) (table : List Row)
    (ctx : Context) (d : δ) (r : Request) (hm : r.Method = "GET") :
    ((pgEventStore (tableDB insert)).ListEvents ctx table =
        ((some (selectOrdered table), none), table) ∧
      (selectOrdered table).Perm (table.map Row.toEvent) ∧
      (selectOrdered table).Sorted (fun a b => Time.le a.StartTime b.StartTime) ∧
      (∀ table2 : List Row, table2.Perm table →
        (selectOrdered table2).Perm (selectOrdered table) ∧
        (selectOrdered table2).Sorted (fun a b => Time.le a.StartTime b.StartTime)) ∧
      (handleListEvents env (eventService (pgEventStore (tableDB insert))) r table).resp =
        ⟨200, "application/json", encodeEventSlice env (some (selectOrdered table))⟩) ∧
    (∀ (es : List Event) d1, db.QueryContext ctx d = (.ok ⟨es.map Except.ok, none⟩, d1) →
      (pgEventStore db).ListEvents ctx d = ((some es, none), d1)) ∧
    (∀ d1, db.QueryContext ctx d = (.ok ⟨[], none⟩, d1) →
      (pgEventStore db).ListEvents ctx d = ((some [], none), d1)) ∧
    (∀ err d1, db.QueryContext ctx d = (.error err, d1) →
      (pgEventStore db).ListEvents ctx d = ((none, some err), d1)) ∧
    (∀ (es : List Event) err rest rowsErr d1,
      db.QueryContext ctx d = (.ok ⟨es.map Except.ok ++ Except.error err :: rest, rowsErr⟩, d1) →
      (pgEventStore db).ListEvents ctx d = ((none, some err), d1)) ∧
    (∀ (es : List Event) err d1,
      db.QueryContext ctx d = (.ok ⟨es.map Except.ok, some err⟩, d1) →
      (pgEventStore db).ListEvents ctx d = ((none, some err), d1)) := by
  refine ⟨⟨tableDB_ListEvents insert ctx table, (selectOrdered_sorted_perm table).1,
    (selectOrdered_sorted_perm table).2, ?_, ?_⟩, ?_, ?_, ?_, ?_, ?_⟩
  · intro table2 hperm
    refine ⟨?_, (selectOrdered_sorted_perm table2).2⟩
    have h1 := (selectOrdered_sorted_perm table2).1
    have h2 := (selectOrdered_sorted_perm table).1
    exact h1.trans ((hperm.map Row.toEvent).trans h2.symm)
  · simp only [handleListEvents, hm, eventService]
    rw [tableDB_ListEvents]
    simp [writeJSON, StatusOK]
  · intro es d1 hq
    simp [pgEventStore, hq, scanRows_all_ok]
  · intro d1 hq
    simp [pgEventStore, hq, scanRows]
  · intro err d1 hq
    simp [pgEventStore, hq]
  · intro es err rest rowsErr d1 hq
    simp [pgEventStore, hq, scanRows_first_error]
  · intro es err d1 hq
    simp [pgEventStore, hq, scanRows_all_ok]

/-- C12 on the sample table, whose rows were inserted out of order: the events
come back as "Standup" (09:00), "Retro" (09:00 and 500 ns), "Review" (09:15). -/
theorem pgEventStore_ListEvents_ordered_witness :
    ((pgEventStore (tableDB storeRow)).ListEvents ⟨none⟩ sampleTable).1 =
      (some (selectOrdered sampleTable), none) ∧
    (selectOrdered sampleTable).map (fun e => e.Title) = ["Standup", "Retro", "Review"] ∧
    (selectOrdered sampleTable).Sorted (fun a b => Time.le a.StartTime b.StartTime) :=
  ⟨congrArg Prod.fst (pgEventStore_ListEvents_ordered sampleEnv emptyDB storeRow sampleTable
      ⟨none⟩ () ⟨"GET", "/events", ⟨none⟩, none⟩ rfl).1.1,
    by decide,
    (pgEventStore_ListEvents_ordered sampleEnv emptyDB storeRow sampleTable
      ⟨none⟩ () ⟨"GET", "/events", ⟨none⟩, none⟩ rfl).1.2.2.1⟩

/-! ## Routing and the id segment -/

/-- Every path that the mux delivers to `handleGetEventByID` starts with
`/events/`. -/
theorem routeOf_getByID_path (method path : String)
    (h : routeOf method path = some Route.getByID) : ∃ rest, path = "/events/" ++ rest := by
  simp only [routeOf, RegisterRoutes, List.find?_cons, List.find?_nil] at h
  split at h
  · simp at h
  · split at h
    · simp at h
    · split at h
      · rename_i hmatch
        simp only [patternMatches, Bool.and_eq_true] at hmatch
        have hpre := hmatch.2
        have hlast : "/events/".data.getLast? = some '/' := by decide
        rw [if_pos hlast, List.isPrefixOf_iff_prefix] at hpre
        obtain ⟨t, ht⟩ := hpre
        refine ⟨⟨t⟩, ?_⟩
        apply String.ext
        rw [String.data_append, ← ht]
      · simp at h

theorem idSegment_of_prefix (rest : String) :
    idSegment ("/events/" ++ rest) = some (goBytes rest) := by
  simp only [idSegment, len_events_prefix rest, if_false, drop_events_prefix]

/-- The handler reads the path only through the slice expression. -/
theorem handleGetEventByID_congr {σ : Type} (env : Env) (svc : EventService σ)
    (r r2 : Request) (s : σ) (hmeth : r2.Method = r.Method) (hctx : r2.Context = r.Context)
    (hseg : idSegment r2.Path = idSegment r.Path) :
    handleGetEventByID env svc r2 s = handleGetEventByID env svc r s := by
  simp only [handleGetEventByID, hmeth, hctx]
  unfold idSegment at hseg
  by_cases h1 : len r.Path < len "/events/" <;> by_cases h2 : len r2.Path < len "/events/"
  · simp [h1, h2]
  · simp [h1, h2] at hseg
  · simp [h1, h2] at hseg
  · simp only [h1, h2, if_false, Option.some.injEq] at hseg
    simp only [h1, h2, if_false, hseg]

/-- C13: a path delivered by the registration `GET /events/` starts with
`/events/`; on every such path the slice is in range (the handler returns),
and the extracted id is exactly the rest of the path after the prefix, further
slashes included, which is all the handler uses of the path; on a path shorter
than the prefix the slice is out of range and a GET request makes the handler
fail. -/
theorem handleGetEventByID_slice {σ : Type} (env : Env) (svc : EventService σ) (r : Request)
    (s : σ) :
    (∀ method, routeOf method r.Path = some Route.getByID →
      ∃ rest, r.Path = "/events/" ++ rest) ∧
    (∀ rest : String, r.Path = "/events/" ++ rest →
      idSegment r.Path = some (goBytes rest) ∧
      (handleGetEventByID env svc r s).isSome = true) ∧
    (∀ r2 : Request, r2.Method = r.Method → r2.Context = r.Context →
      idSegment r2.Path = idSegment r.Path →
      handleGetEventByID env svc r2 s = handleGetEventByID env svc r s) ∧
    (len r.Path < len "/events/" →
      idSegment r.Path = none ∧
      (r.Method = "GET" → handleGetEventByID env svc r s = none)) := by
  refine ⟨fun method h => routeOf_getByID_path method r.Path h, ?_,
    fun r2 hmeth hctx hseg => handleGetEventByID_congr env svc r r2 s hmeth hctx hseg, ?_⟩
  · intro rest hp
    refine ⟨by rw [hp, idSegment_of_prefix], ?_⟩
    by_cases hm : r.Method = "GET"
    · rw [handleGetEventByID_of_path env svc r rest s hm hp]
      by_cases hrest : rest = ""
      · simp [hrest]
      · simp only [hrest, if_false]
        rcases env.uuidParse (goBytes rest) with _ | id
        · simp
        · rcases hg : svc.GetEvent (callCtx env r) id s with ⟨⟨_ | e, _ | err⟩, s1⟩ <;>
            simp [hg]
    · simp [handleGetEventByID, hm]
  · intro hshort
    refine ⟨by simp [idSegment, hshort], ?_⟩
    intro hm
    simp [handleGetEventByID, hm, hshort]

/-- C13 at `GET /events/a/b`: the request is routed to the handler, the id is
`a/b`, and the handler answers (404, as `a/b` is not a UUID). -/
theorem handleGetEventByID_slice_witness :
    routeOf "GET" "/events/a/b" = some Route.getByID ∧
    idSegment "/events/a/b" = some (goBytes "a/b") ∧
    (handleGetEventByID sampleEnv mockService ⟨"GET", "/events/a/b", ⟨none⟩, none⟩ {}).isSome =
      true :=
  ⟨by decide,
    ((handleGetEventByID_slice sampleEnv mockService ⟨"GET", "/events/a/b", ⟨none⟩, none⟩
      {}).2.1 "a/b" (by decide)).1,
    ((handleGetEventByID_slice sampleEnv mockService ⟨"GET", "/events/a/b", ⟨none⟩, none⟩
      {}).2.1 "a/b" (by decide)).2⟩

end Events
